import Mathlib

/-!
Verification of `src/server/models.py`: a Flask-SQLAlchemy data model
(Customer, Item, Review) with marshmallow serialization schemas
(CustomerSchema, ItemSchema, ReviewSchema).

The embedding models:
- the three entity tables as Lean structures (`Customer`, `Item`, `Review`),
  a `Store` holding the three tables;
- the SQLAlchemy relationships (`Customer.reviews`, `Item.reviews`,
  `Review.customer`, `Review.item`) as foreign-key lookups over the store;
- the association proxy `Customer.items = association_proxy('reviews', 'item')`;
- the marshmallow schemas as functions from an entity (plus an `exclude`
  list of field names, as in `Schema(exclude=...)`) to a JSON-like value,
  with nested fields resolved through the store exactly as the lambdas in
  the source do (`ReviewSchema(exclude=('customer','item'))`, etc.);
- the cascade deletes declared by `cascade='all, delete-orphan'`;
- the foreign-key constraint naming convention of the `MetaData`.

`price` is `db.Float`; no arithmetic is ever performed on it in the source
(it is only stored and copied into serialized output), so it is embedded
as `Rat`, an exact carrier for the literal values involved.
-/

namespace Models

/-- JSON-like values: the output representation of a marshmallow dump.
Objects keep their fields as an ordered association list (marshmallow
emits fields in declaration order). -/
inductive JVal where
  | null : JVal
  | int : Int → JVal
  | str : String → JVal
  | num : Rat → JVal
  | arr : List JVal → JVal
  | obj : List (String × JVal) → JVal

/-- The keys of a serialized object (empty for non-objects). -/
def JVal.keys : JVal → List String
  | .obj l => l.map (fun p => p.1)
  | _ => []

/-- Look up a field of a serialized object by key. -/
def JVal.lookup : JVal → String → Option JVal
  | .obj l, k => (l.find? (fun p => p.1 == k)).map (fun p => p.2)
  | _, _ => none

/-- Serialize an optional nested value: `None` dumps as JSON `null`
(marshmallow `fields.Nested` with a `None` attribute value). -/
def jopt : Option JVal → JVal
  | none => JVal.null
  | some v => v

/-- `class Customer(db.Model)`: columns `id` (Integer, primary key) and
`name` (String). -/
structure Customer where
  id : Int
  name : String
deriving Repr, DecidableEq

/-- `class Item(db.Model)`: columns `id` (Integer, primary key),
`name` (String) and `price` (Float). -/
structure Item where
  id : Int
  name : String
  price : Rat
deriving Repr, DecidableEq

/-- `class Review(db.Model)`: columns `id` (Integer, primary key),
`comment` (String), and nullable foreign keys `customer_id`
(→ `customers.id`) and `item_id` (→ `items.id`). -/
structure Review where
  id : Int
  comment : String
  customer_id : Option Int
  item_id : Option Int
deriving Repr, DecidableEq

/-- The database state: the rows of the three tables. -/
structure Store where
  customers : List Customer
  items : List Item
  reviews : List Review
deriving Repr, DecidableEq

/-- `Customer.reviews = db.relationship('Review', back_populates='customer', ...)`:
the reviews whose `customer_id` foreign key references this customer. -/
def Store.customerReviews (st : Store) (c : Customer) : List Review :=
  st.reviews.filter (fun r => r.customer_id == some c.id)

/-- `Item.reviews = db.relationship('Review', back_populates='item', ...)`:
the reviews whose `item_id` foreign key references this item. -/
def Store.itemReviews (st : Store) (i : Item) : List Review :=
  st.reviews.filter (fun r => r.item_id == some i.id)

/-- `Review.customer = db.relationship('Customer', back_populates='reviews')`:
the customer row referenced by `customer_id`, or `None`. -/
def Store.reviewCustomer (st : Store) (r : Review) : Option Customer :=
  r.customer_id.bind (fun cid => st.customers.find? (fun c => c.id == cid))

/-- `Review.item = db.relationship('Item', back_populates='reviews')`:
the item row referenced by `item_id`, or `None`. -/
def Store.reviewItem (st : Store) (r : Review) : Option Item :=
  r.item_id.bind (fun iid => st.items.find? (fun i => i.id == iid))

/-- `Customer.items = association_proxy('reviews', 'item')`: the list
`[review.item for review in customer.reviews]` — one entry per review of
the customer, each entry being the review's item (which is `None` when the
review's `item_id` is null). -/
def Store.itemsProxy (st : Store) (c : Customer) : List (Option Item) :=
  (st.customerReviews c).map (fun r => st.reviewItem r)

mutual

/-- `CustomerSchema`: fields `id = fields.Integer()`, `name = fields.String()`,
`reviews = fields.Nested(lambda: ReviewSchema(exclude=('customer','item')), many=True)`.
The `ex` argument is the schema's `exclude` tuple: an excluded field is
removed from the schema and never serialized. -/
def dumpCustomer (st : Store) (ex : List String) (c : Customer) : JVal :=
  JVal.obj (
    (if "id" ∈ ex then [] else [("id", JVal.int c.id)]) ++
    (if "name" ∈ ex then [] else [("name", JVal.str c.name)]) ++
    (if "reviews" ∈ ex then [] else
      [("reviews", JVal.arr ((st.customerReviews c).map
          (fun r => dumpReview st ["customer", "item"] r)))]))
termination_by (if "reviews" ∈ ex then 0 else 3 : Nat)
decreasing_by simp_all

/-- `ItemSchema`: fields `id`, `name`, `price = fields.Float()`,
`reviews = fields.Nested(lambda: ReviewSchema(exclude=('item','customer')), many=True)`. -/
def dumpItem (st : Store) (ex : List String) (i : Item) : JVal :=
  JVal.obj (
    (if "id" ∈ ex then [] else [("id", JVal.int i.id)]) ++
    (if "name" ∈ ex then [] else [("name", JVal.str i.name)]) ++
    (if "price" ∈ ex then [] else [("price", JVal.num i.price)]) ++
    (if "reviews" ∈ ex then [] else
      [("reviews", JVal.arr ((st.itemReviews i).map
          (fun r => dumpReview st ["item", "customer"] r)))]))
termination_by (if "reviews" ∈ ex then 0 else 3 : Nat)
decreasing_by simp_all

/-- `ReviewSchema`: fields `id`, `comment`,
`customer = fields.Nested(lambda: CustomerSchema(exclude=('reviews',)), allow_none=True)`,
`item = fields.Nested(lambda: ItemSchema(exclude=('reviews',)), allow_none=True)`.
A `None` relationship value dumps as `null` (`jopt`). -/
def dumpReview (st : Store) (ex : List String) (r : Review) : JVal :=
  JVal.obj (
    (if "id" ∈ ex then [] else [("id", JVal.int r.id)]) ++
    (if "comment" ∈ ex then [] else [("comment", JVal.str r.comment)]) ++
    (if "customer" ∈ ex then [] else
      [("customer", jopt ((st.reviewCustomer r).map
          (fun c => dumpCustomer st ["reviews"] c)))]) ++
    (if "item" ∈ ex then [] else
      [("item", jopt ((st.reviewItem r).map
          (fun i => dumpItem st ["reviews"] i)))]))
termination_by
  ((if "customer" ∈ ex then 0 else 4) + (if "item" ∈ ex then 0 else 4) : Nat)
decreasing_by
  · simp_all
  · simp_all

end

mutual

/-- Entity-nesting depth of a serialized value: objects count one level,
arrays are transparent (a `many=True` nested field is one list of nested
entity objects, i.e. one nesting level), primitives are depth 0. -/
def JVal.depth : JVal → Nat
  | .null => 0
  | .int _ => 0
  | .str _ => 0
  | .num _ => 0
  | .arr l => JVal.depthArr l
  | .obj l => 1 + JVal.depthObj l

/-- Maximal depth of the elements of a serialized array. -/
def JVal.depthArr : List JVal → Nat
  | [] => 0
  | v :: vs => max v.depth (JVal.depthArr vs)

/-- Maximal depth of the field values of a serialized object. -/
def JVal.depthObj : List (String × JVal) → Nat
  | [] => 0
  | p :: ps => max p.2.depth (JVal.depthObj ps)

end

/-- Deleting a Customer row. `Customer.reviews` is declared with
`cascade='all, delete-orphan'`, so deleting a customer also deletes every
review in its `reviews` collection (those whose `customer_id` references
it); all other rows are untouched. -/
def deleteCustomer (st : Store) (cid : Int) : Store :=
  { customers := st.customers.filter (fun c => !(c.id == cid)),
    items := st.items,
    reviews := st.reviews.filter (fun r => !(r.customer_id == some cid)) }

/-- Deleting an Item row. `Item.reviews` is declared with
`cascade='all, delete-orphan'`, so deleting an item also deletes every
review whose `item_id` references it; all other rows are untouched. -/
def deleteItem (st : Store) (iid : Int) : Store :=
  { customers := st.customers,
    items := st.items.filter (fun i => !(i.id == iid)),
    reviews := st.reviews.filter (fun r => !(r.item_id == some iid)) }

/-- Assigning the scalar side of a link: `review.customer = customer`
(or `None`). With `back_populates`, SQLAlchemy records this by setting th
review's `customer_id` foreign key; the collection views are derived from
that same foreign key, so they reflect the change without a separate write. -/
def setReviewCustomer (st : Store) (rid : Int) (cid : Option Int) : Store :=
  { st with reviews := (st.reviews.map
      (fun r => if r.id == rid then { r with customer_id := cid } else r)) }

/-- The `MetaData` naming convention for foreign keys:
`fk_%(table_name)s_%(column_0_name)s_%(referred_table_name)s`. -/
def fkName (table column referredTable : String) : String :=
  "fk_" ++ table ++ "_" ++ column ++ "_" ++ referredTable

/-- The foreign-key declarations of the source, as
(table, constrained column, referred table) triples:
`reviews.customer_id → customers.id` and `reviews.item_id → items.id`. -/
def reviewForeignKeys : List (String × String × String) :=
  [("reviews", "customer_id", "customers"), ("reviews", "item_id", "items")]

/-- Version of the derived `items` attribute following the SPEC's words
(for comparison with `Store.itemsProxy`, which embeds the source): "the
set of distinct Items whose ids appear among the item_id values of C's
reviews, with null item_id entries excluded from the derived set". -/
def itemsSpecC3 (st : Store) (c : Customer) : List Item :=
  st.items.filter
    (fun i => ((st.customerReviews c).filterMap (fun r => r.item_id)).contains i.id)

/-- Claim C3 as stated: the derived attribute `Customer.items` equals the
distinct, null-free set of Items described by the spec. -/
def claimC3 (st : Store) (c : Customer) : Prop :=
  st.itemsProxy c = (itemsSpecC3 st c).map some

/-- The customer of the spec's worked example: `Customer{id=1,name="Ana"}`. -/
def anaCustomer : Customer := { id := 1, name := "Ana" }

/-- The item of the spec's worked example: `Item{id=5,name="Mug",price=9.99}`. -/
def mugItem : Item := { id := 5, name := "Mug", price := 999 / 100 }

/-- The review of the spec's worked example:
`Review{id=10,comment="ok",customer_id=1,item_id=5}`. -/
def okReview : Review :=
  { id := 10, comment := "ok", customer_id := some 1, item_id := some 5 }

/-- The store holding exactly the spec's worked example rows. -/
def exampleStore : Store :=
  { customers := [anaCustomer], items := [mugItem], reviews := [okReview] }

/-- C6: on the concrete example — Customer{id=1,name="Ana"},
Review{id=10,comment="ok",customer_id=1,item_id=5},
Item{id=5,name="Mug",price=9.99} — serializing the Customer yields
`{id:1, name:"Ana", reviews:[{id:10, comment:"ok"}]}` and serializing the
Review yields `{id:10, comment:"ok", customer:{id:1, name:"Ana"},
item:{id:5, name:"Mug", price:9.99}}`. -/
theorem example_dump_ana_mug :
    dumpCustomer exampleStore [] anaCustomer =
      JVal.obj [("id", JVal.int 1), ("name", JVal.str "Ana"),
        ("reviews", JVal.arr [JVal.obj [("id", JVal.int 10), ("comment", JVal.str "ok")]])] ∧
    dumpReview exampleStore [] okReview =
      JVal.obj [("id", JVal.int 10), ("comment", JVal.str "ok"),
        ("customer", JVal.obj [("id", JVal.int 1), ("name", JVal.str "Ana")]),
        ("item", JVal.obj [("id", JVal.int 5), ("name", JVal.str "Mug"),
          ("price", JVal.num (999 / 100))])] := by
  constructor
  · simp [dumpCustomer, dumpReview, Store.customerReviews, exampleStore,
      anaCustomer, okReview, List.filter, jopt]
  · simp [dumpReview, dumpCustomer, dumpItem, Store.reviewCustomer, Store.reviewItem,
      exampleStore, anaCustomer, mugItem, okReview, List.find?, jopt]

/-- C9: the `MetaData` naming convention applied to the two foreign keys
declared on the `reviews` table yields
`fk_reviews_customer_id_customers` and `fk_reviews_item_id_items`. -/
theorem fk_constraint_names :
    reviewForeignKeys.map (fun t => fkName t.1 t.2.1 t.2.2) =
      ["fk_reviews_customer_id_customers", "fk_reviews_item_id_items"] := by
  rfl

/-- C1: serializing a Customer with `CustomerSchema` yields exactly the
fields `id`, `name`, `reviews`; `reviews` is a list in which every entry
omits the nested `customer` and `item` fields, and whose length equals the
number of Reviews whose `customer_id` equals the customer's id. -/
theorem customerSchema_shape (st : Store) (c : Customer) :
    (dumpCustomer st [] c).keys = ["id", "name", "reviews"] ∧
    ∃ l : List JVal,
      (dumpCustomer st [] c).lookup "reviews" = some (JVal.arr l) ∧
      l.length = st.reviews.countP (fun r => r.customer_id == some c.id) ∧
      ∀ v ∈ l, "customer" ∉ v.keys ∧ "item" ∉ v.keys := by
  refine ⟨by simp [dumpCustomer, JVal.keys],
    (st.customerReviews c).map (fun r => dumpReview st ["customer", "item"] r),
    ?_, ?_, ?_⟩
  · simp [dumpCustomer, JVal.lookup, List.find?]
  · simp [Store.customerReviews, List.countP_eq_length_filter]
  · intro v hv
    obtain ⟨r, _hr, rfl⟩ := List.mem_map.mp hv
    exact ⟨by simp [dumpReview, JVal.keys], by simp [dumpReview, JVal.keys]⟩

/-- C7: serializing an Item with `ItemSchema` yields exactly the fields
`id`, `name`, `price`, `reviews`; every entry of the `reviews` list omits
its nested `item` and `customer` fields (and the list length equals the
number of Reviews whose `item_id` equals the item's id). -/
theorem itemSchema_shape (st : Store) (i : Item) :
    (dumpItem st [] i).keys = ["id", "name", "price", "reviews"] ∧
    ∃ l : List JVal,
      (dumpItem st [] i).lookup "reviews" = some (JVal.arr l) ∧
      l.length = st.reviews.countP (fun r => r.item_id == some i.id) ∧
      ∀ v ∈ l, "item" ∉ v.keys ∧ "customer" ∉ v.keys := by
  refine ⟨by simp [dumpItem, JVal.keys],
    (st.itemReviews i).map (fun r => dumpReview st ["item", "customer"] r),
    ?_, ?_, ?_⟩
  · simp [dumpItem, JVal.lookup, List.find?]
  · simp [Store.itemReviews, List.countP_eq_length_filter]
  · intro v hv
    obtain ⟨r, _hr, rfl⟩ := List.mem_map.mp hv
    exact ⟨by simp [dumpReview, JVal.keys], by simp [dumpReview, JVal.keys]⟩

/-- C2: serializing a Review with `ReviewSchema` yields the fields `id`,
`comment`, `customer`, `item`; the nested customer and item objects omit
their `reviews` field; and a null `customer_id` (resp. `item_id`) makes the
nested `customer` (resp. `item`) field serialize as `null` rather than
raising an error (the dump is total). -/
theorem reviewSchema_shape (st : Store) (r : Review) :
    (dumpReview st [] r).keys = ["id", "comment", "customer", "item"] ∧
    (∀ j, (dumpReview st [] r).lookup "customer" = some j → "reviews" ∉ j.keys) ∧
    (∀ j, (dumpReview st [] r).lookup "item" = some j → "reviews" ∉ j.keys) ∧
    (r.customer_id = none → (dumpReview st [] r).lookup "customer" = some JVal.null) ∧
    (r.item_id = none → (dumpReview st [] r).lookup "item" = some JVal.null) := by
  refine ⟨by simp [dumpReview, JVal.keys], ?_, ?_, ?_, ?_⟩
  · intro j hj
    cases h : st.reviewCustomer r <;>
      simp [dumpReview, JVal.lookup, List.find?, h, jopt] at hj <;>
      subst hj <;> simp [JVal.keys, dumpCustomer]
  · intro j hj
    cases h : st.reviewItem r <;>
      simp [dumpReview, JVal.lookup, List.find?, h, jopt] at hj <;>
      subst hj <;> simp [JVal.keys, dumpItem]
  · intro h
    simp [dumpReview, JVal.lookup, List.find?, Store.reviewCustomer, h, jopt]
  · intro h
    simp [dumpReview, JVal.lookup, List.find?, Store.reviewItem, h, jopt]

/-- C10: the `customer` and `item` keys are always present in a dumped
Review, and a null `customer_id` (resp. `item_id`) gives them the explicit
value `null` — the key is never omitted from the output. -/
theorem review_null_fk_dumps_null (st : Store) (r : Review) :
    "customer" ∈ (dumpReview st [] r).keys ∧
    "item" ∈ (dumpReview st [] r).keys ∧
    (r.customer_id = none → (dumpReview st [] r).lookup "customer" = some JVal.null) ∧
    (r.item_id = none → (dumpReview st [] r).lookup "item" = some JVal.null) := by
  refine ⟨by simp [dumpReview, JVal.keys], by simp [dumpReview, JVal.keys], ?_, ?_⟩
  · intro h
    simp [dumpReview, JVal.lookup, List.find?, Store.reviewCustomer, h, jopt]
  · intro h
    simp [dumpReview, JVal.lookup, List.find?, Store.reviewItem, h, jopt]

/-- `contains` on a list of ids agrees with membership. -/
theorem contains_int_iff_mem (l : List Int) (a : Int) :
    l.contains a = true ↔ a ∈ l := by
  induction l with
  | nil => simp
  | cons b t ih => simp [List.contains_cons, ih]

/-- `find?` by id returns exactly the one element carrying that id, when the
ids of the list are distinct. -/
theorem find?_by_id_eq_some {α : Type} (f : α → Int) (l : List α) (a : α)
    (ha : a ∈ l) (hnd : (l.map f).Nodup) :
    l.find? (fun x => f x == f a) = some a := by
  induction l with
  | nil => simp at ha
  | cons b t ih =>
    rw [List.map_cons, List.nodup_cons] at hnd
    rcases List.mem_cons.mp ha with rfl | hat
    · exact List.find?_cons_of_pos t (by simp)
    · have hne : f b ≠ f a := by
        intro he
        exact hnd.1 (he ▸ List.mem_map_of_mem f hat)
      rw [List.find?_cons_of_neg t (by simp [hne])]
      exact ih hat hnd.2

/-- Characterization of `Review.item` under distinct item ids: the
relationship resolves to `i` exactly when `i` is a stored item and the
review's `item_id` is `i.id`. -/
theorem reviewItem_eq_some_iff (st : Store) (r : Review) (i : Item)
    (hnd : (st.items.map Item.id).Nodup) :
    st.reviewItem r = some i ↔ i ∈ st.items ∧ r.item_id = some i.id := by
  unfold Store.reviewItem
  cases hcid : r.item_id with
  | none => simp
  | some iid =>
    simp only [Option.some_bind, Option.some.injEq]
    constructor
    · intro hf
      have hmem := List.mem_of_find?_eq_some hf
      have hp := List.find?_some hf
      rw [beq_iff_eq] at hp
      exact ⟨hmem, by rw [hp]⟩
    · rintro ⟨hi, hid⟩
      subst hid
      exact find?_by_id_eq_some Item.id st.items i hi hnd

/-- Characterization of `Review.customer` under distinct customer ids. -/
theorem reviewCustomer_eq_some_iff (st : Store) (r : Review) (c : Customer)
    (hnd : (st.customers.map Customer.id).Nodup) :
    st.reviewCustomer r = some c ↔ c ∈ st.customers ∧ r.customer_id = some c.id := by
  unfold Store.reviewCustomer
  cases hcid : r.customer_id with
  | none => simp
  | some cid =>
    simp only [Option.some_bind, Option.some.injEq]
    constructor
    · intro hf
      have hmem := List.mem_of_find?_eq_some hf
      have hp := List.find?_some hf
      rw [beq_iff_eq] at hp
      exact ⟨hmem, by rw [hp]⟩
    · rintro ⟨hc, hid⟩
      subst hid
      exact find?_by_id_eq_some Customer.id st.customers c hc hnd

/-- A customer whose single review has a null `item_id`: the association
proxy yields `[None]`, while the spec's derived set is empty. -/
def c3Customer : Customer := { id := 1, name := "a" }

/-- A review of `c3Customer` with a null `item_id`. -/
def c3Review : Review :=
  { id := 1, comment := "", customer_id := some 1, item_id := none }

/-- The store exhibiting the C3 divergence. -/
def c3Store : Store :=
  { customers := [c3Customer], items := [], reviews := [c3Review] }

/-- C3 (counterexample): for the customer whose only review has a null
`item_id`, `Customer.items` (the association proxy) is `[None]` — the null
entry is NOT excluded — whereas the spec's distinct, null-free derived set
is empty; so the claim as stated fails. -/
theorem itemsProxy_claim_counterexample :
    ¬ claimC3 c3Store c3Customer ∧
    c3Store.itemsProxy c3Customer = [none] ∧
    itemsSpecC3 c3Store c3Customer = [] := by
  refine ⟨?_, ?_, rfl⟩
  · intro h
    rw [claimC3] at h
    simp [Store.itemsProxy, Store.customerReviews, Store.reviewItem, itemsSpecC3,
      c3Store, c3Customer, c3Review, List.filter] at h
  · simp [Store.itemsProxy, Store.customerReviews, Store.reviewItem,
      c3Store, c3Customer, c3Review, List.filter]

/-- C3 (amended): `Customer.items` is the list `[r.item for r in c.reviews]` —
one entry per review, `None` entries for reviews with a null `item_id`
retained, duplicates retained. Up to nulls and duplicates it does carry the
spec's derived set: when the stored item ids are distinct, the non-null
entries of `Customer.items` are exactly the distinct Items whose ids appear
among the `item_id` values of the customer's reviews. -/
theorem itemsProxy_amended (st : Store) (c : Customer)
    (hnd : (st.items.map Item.id).Nodup) :
    (st.itemsProxy c).length = (st.customerReviews c).length ∧
    ∀ i : Item, some i ∈ st.itemsProxy c ↔ i ∈ itemsSpecC3 st c := by
  constructor
  · simp [Store.itemsProxy]
  · intro i
    constructor
    · intro h
      obtain ⟨r, hr, hri⟩ := List.mem_map.mp h
      have hch := (reviewItem_eq_some_iff st r i hnd).mp hri
      rw [itemsSpecC3, List.mem_filter]
      refine ⟨hch.1, ?_⟩
      rw [contains_int_iff_mem]
      exact List.mem_filterMap.mpr ⟨r, hr, hch.2⟩
    · intro h
      rw [itemsSpecC3, List.mem_filter, contains_int_iff_mem] at h
      obtain ⟨hi, hcont⟩ := h
      obtain ⟨r, hr, hid⟩ := List.mem_filterMap.mp hcont
      exact List.mem_map.mpr ⟨r, hr, (reviewItem_eq_some_iff st r i hnd).mpr ⟨hi, hid⟩⟩

/-- Witness for the amended C3 at the worked-example store: its single item
id is distinct, the proxy has one entry per review, and the non-null
entries are the spec's derived set. -/
theorem itemsProxy_amended_witness :
    (exampleStore.itemsProxy anaCustomer).length =
        (exampleStore.customerReviews anaCustomer).length ∧
    ∀ i : Item, some i ∈ exampleStore.itemsProxy anaCustomer ↔
        i ∈ itemsSpecC3 exampleStore anaCustomer :=
  itemsProxy_amended exampleStore anaCustomer (by simp [exampleStore, mugItem])

/-- Removing the elements satisfying `p` removes exactly `countP p` of them. -/
theorem length_filter_not_add_countP {α : Type} (p : α → Bool) (l : List α) :
    (l.filter (fun a => !(p a))).length + l.countP p = l.length := by
  induction l with
  | nil => rfl
  | cons a t ih =>
    by_cases h : p a <;> simp [List.filter_cons, List.countP_cons, h] <;> omega

/-- C4: deleting a Customer (resp. Item) with N referencing Reviews removes
exactly those N Reviews (cascade of `all, delete-orphan`), keeps every other
Review (in order, as a sublist), leaves the other tables untouched, and
leaves no Review with a dangling foreign key to the deleted row. -/
theorem cascade_delete_frame (st : Store) (cid iid : Int) :
    ((deleteCustomer st cid).reviews.length
        + st.reviews.countP (fun r => r.customer_id == some cid) = st.reviews.length) ∧
    (∀ r ∈ st.reviews, r.customer_id ≠ some cid → r ∈ (deleteCustomer st cid).reviews) ∧
    (∀ r ∈ (deleteCustomer st cid).reviews, r ∈ st.reviews ∧ r.customer_id ≠ some cid) ∧
    (deleteCustomer st cid).reviews.Sublist st.reviews ∧
    (deleteCustomer st cid).items = st.items ∧
    ((deleteItem st iid).reviews.length
        + st.reviews.countP (fun r => r.item_id == some iid) = st.reviews.length) ∧
    (∀ r ∈ st.reviews, r.item_id ≠ some iid → r ∈ (deleteItem st iid).reviews) ∧
    (∀ r ∈ (deleteItem st iid).reviews, r ∈ st.reviews ∧ r.item_id ≠ some iid) ∧
    (deleteItem st iid).reviews.Sublist st.reviews ∧
    (deleteItem st iid).customers = st.customers := by
  refine ⟨length_filter_not_add_countP _ _, ?_, ?_, List.filter_sublist _, rfl,
    length_filter_not_add_countP _ _, ?_, ?_, List.filter_sublist _, rfl⟩
  · intro r hr hne
    simp [deleteCustomer, List.mem_filter, hr, hne]
  · intro r hr
    rw [deleteCustomer] at hr
    simp only [List.mem_filter] at hr
    exact ⟨hr.1, by simpa using hr.2⟩
  · intro r hr hne
    simp [deleteItem, List.mem_filter, hr, hne]
  · intro r hr
    rw [deleteItem] at hr
    simp only [List.mem_filter] at hr
    exact ⟨hr.1, by simpa using hr.2⟩

/-- C8: the two sides of each link are views of the same foreign key, so
they are mutually consistent: under distinct primary keys, a review is in a
customer's (resp. item's) `reviews` collection exactly when the review's
scalar `customer` (resp. `item`) side resolves to that row; and assigning
the scalar side (`setReviewCustomer`) makes the updated review appear in
the target customer's collection view without a separate write. -/
theorem relationships_bidirectional (st : Store) :
    ((st.customers.map Customer.id).Nodup →
      ∀ c ∈ st.customers, ∀ r ∈ st.reviews,
        (r ∈ st.customerReviews c ↔ st.reviewCustomer r = some c)) ∧
    ((st.items.map Item.id).Nodup →
      ∀ i ∈ st.items, ∀ r ∈ st.reviews,
        (r ∈ st.itemReviews i ↔ st.reviewItem r = some i)) ∧
    (∀ (c : Customer) (r : Review), c ∈ st.customers → r ∈ st.reviews →
      { r with customer_id := some c.id } ∈
        (setReviewCustomer st r.id (some c.id)).customerReviews c) := by
  refine ⟨?_, ?_, ?_⟩
  · intro hnd c hc r hr
    constructor
    · intro hmem
      rw [Store.customerReviews, List.mem_filter] at hmem
      have hcid : r.customer_id = some c.id := by simpa using hmem.2
      exact (reviewCustomer_eq_some_iff st r c hnd).mpr ⟨hc, hcid⟩
    · intro heq
      have h2 := (reviewCustomer_eq_some_iff st r c hnd).mp heq
      rw [Store.customerReviews, List.mem_filter]
      exact ⟨hr, by simp [h2.2]⟩
  · intro hnd i hi r hr
    constructor
    · intro hmem
      rw [Store.itemReviews, List.mem_filter] at hmem
      have hiid : r.item_id = some i.id := by simpa using hmem.2
      exact (reviewItem_eq_some_iff st r i hnd).mpr ⟨hi, hiid⟩
    · intro heq
      have h2 := (reviewItem_eq_some_iff st r i hnd).mp heq
      rw [Store.itemReviews, List.mem_filter]
      exact ⟨hr, by simp [h2.2]⟩
  · intro c r _hc hr
    rw [Store.customerReviews, List.mem_filter]
    constructor
    · rw [setReviewCustomer]
      exact List.mem_map.mpr ⟨r, hr, by simp⟩
    · simp

/-- `depthObj` over an append is the max of the two halves. -/
theorem depthObj_append (l1 l2 : List (String × JVal)) :
    JVal.depthObj (l1 ++ l2) = max (JVal.depthObj l1) (JVal.depthObj l2) := by
  induction l1 with
  | nil => simp [JVal.depthObj]
  | cons p t ih => simp [JVal.depthObj, ih, Nat.max_assoc]

/-- An array's depth is bounded by any bound on its elements. -/
theorem depthArr_le_of (l : List JVal) (n : Nat)
    (h : ∀ v ∈ l, v.depth ≤ n) : JVal.depthArr l ≤ n := by
  induction l with
  | nil => simp [JVal.depthArr]
  | cons v t ih =>
    rw [JVal.depthArr]
    exact max_le (h v (List.mem_cons_self v t))
      (ih fun x hx => h x (List.mem_cons_of_mem v hx))

/-- A review nested under `CustomerSchema` (customer and item excluded) is
a flat object: depth 1. -/
theorem depth_dumpReview_nested_cust (st : Store) (r : Review) :
    (dumpReview st ["customer", "item"] r).depth ≤ 1 := by
  simp [dumpReview, JVal.depth, JVal.depthObj]

/-- A review nested under `ItemSchema` (item and customer excluded) is a
flat object: depth 1. -/
theorem depth_dumpReview_nested_item (st : Store) (r : Review) :
    (dumpReview st ["item", "customer"] r).depth ≤ 1 := by
  simp [dumpReview, JVal.depth, JVal.depthObj]

/-- A customer nested under `ReviewSchema` (reviews excluded) is a flat
object: depth 1. -/
theorem depth_dumpCustomer_nested (st : Store) (c : Customer) :
    (dumpCustomer st ["reviews"] c).depth ≤ 1 := by
  simp [dumpCustomer, JVal.depth, JVal.depthObj]

/-- An item nested under `ReviewSchema` (reviews excluded) is a flat
object: depth 1. -/
theorem depth_dumpItem_nested (st : Store) (i : Item) :
    (dumpItem st ["reviews"] i).depth ≤ 1 := by
  simp [dumpItem, JVal.depth, JVal.depthObj]

/-- `1 + x ≤ 2` once the object body is bounded by 1. -/
theorem one_add_le_two {x : Nat} (h : x ≤ 1) : 1 + x ≤ 2 := by omega

/-- Any customer dump nests at most 2 entity levels. -/
theorem depth_dumpCustomer_le (st : Store) (ex : List String) (c : Customer) :
    (dumpCustomer st ex c).depth ≤ 2 := by
  rw [dumpCustomer]
  simp only [JVal.depth, depthObj_append]
  refine one_add_le_two (max_le (max_le ?_ ?_) ?_)
  · split <;> simp [JVal.depthObj, JVal.depth]
  · split <;> simp [JVal.depthObj, JVal.depth]
  · split
    · simp [JVal.depthObj]
    · simp only [JVal.depthObj, JVal.depth]
      refine max_le ?_ (Nat.zero_le 1)
      exact depthArr_le_of _ 1 (fun v hv => by
        obtain ⟨r, _, rfl⟩ := List.mem_map.mp hv
        exact depth_dumpReview_nested_cust st r)

/-- Any item dump nests at most 2 entity levels. -/
theorem depth_dumpItem_le (st : Store) (ex : List String) (i : Item) :
    (dumpItem st ex i).depth ≤ 2 := by
  rw [dumpItem]
  simp only [JVal.depth, depthObj_append]
  refine one_add_le_two (max_le (max_le (max_le ?_ ?_) ?_) ?_)
  · split <;> simp [JVal.depthObj, JVal.depth]
  · split <;> simp [JVal.depthObj, JVal.depth]
  · split <;> simp [JVal.depthObj, JVal.depth]
  · split
    · simp [JVal.depthObj]
    · simp only [JVal.depthObj, JVal.depth]
      refine max_le ?_ (Nat.zero_le 1)
      exact depthArr_le_of _ 1 (fun v hv => by
        obtain ⟨r, _, rfl⟩ := List.mem_map.mp hv
        exact depth_dumpReview_nested_item st r)

/-- Any review dump nests at most 2 entity levels. -/
theorem depth_dumpReview_le (st : Store) (ex : List String) (r : Review) :
    (dumpReview st ex r).depth ≤ 2 := by
  rw [dumpReview]
  simp only [JVal.depth, depthObj_append]
  refine one_add_le_two (max_le (max_le (max_le ?_ ?_) ?_) ?_)
  · split <;> simp [JVal.depthObj, JVal.depth]
  · split <;> simp [JVal.depthObj, JVal.depth]
  · split
    · simp [JVal.depthObj]
    · simp only [JVal.depthObj, JVal.depth]
      refine max_le ?_ (Nat.zero_le 1)
      cases hc : st.reviewCustomer r with
      | none => simp [jopt, JVal.depth]
      | some c => simpa [jopt] using depth_dumpCustomer_nested st c
  · split
    · simp [JVal.depthObj]
    · simp only [JVal.depthObj, JVal.depth]
      refine max_le ?_ (Nat.zero_le 1)
      cases hi : st.reviewItem r with
      | none => simp [jopt, JVal.depth]
      | some i => simpa [jopt] using depth_dumpItem_nested st i

/-- C5: serialization of any entity by any of the three schemas (any
exclusion configuration) is a total function whose output nesting is
bounded: the field exclusions cut the Customer↔Review↔Item cycles, so no
dump nests entity objects deeper than 2 levels. -/
theorem dump_depth_bounded (st : Store) (ex : List String)
    (c : Customer) (i : Item) (r : Review) :
    (dumpCustomer st ex c).depth ≤ 2 ∧
    (dumpItem st ex i).depth ≤ 2 ∧
    (dumpReview st ex r).depth ≤ 2 :=
  ⟨depth_dumpCustomer_le st ex c, depth_dumpItem_le st ex i,
    depth_dumpReview_le st ex r⟩

end Models
